import Mathlib

/-!
Verification of the Beta-Bernoulli update notebook.

The notebook defines two pieces of code:

* `Bern(p)`: `return 1 if rng.random() < p else 0`.
* `learn_p(p, n=150, plot=True)`: starts from `alpha = beta = 1`; for
  `step in range(n)` it optionally renders the current posterior (the
  rendering branch assigns the local variable `Y`), draws
  `flip = Bern(p)` and updates `beta += (1-flip)`, `alpha += flip`.
  After the loop a final rendering block runs unconditionally: it reads
  the loop variable `step` in an f-string (a NameError when `n = 0`,
  since the loop body never ran), then calls `ax.plot(X, Y)` which reads
  `Y` (a NameError when no iteration took the plot branch, i.e. when
  `plot` is false or `n = 0`), then prints the MAP estimate
  `(alpha-1)/(alpha+beta-2)` (a ZeroDivisionError when the denominator
  is zero), and finally returns `(alpha, beta)`.

We embed the numeric state exactly: `p` and the uniform draws are
rationals (Python floats are an exact-arithmetic subset of ℚ, and the
only operation performed on them is the order comparison `draw < p`),
the counters are integers (they start at the int `1` and only ever have
the ints `flip` and `1 - flip` added), and the randomness is an explicit
stream `draws : ℕ → ℚ` giving the successive results of `rng.random()`,
one per loop iteration. Python's unbound-local and division-by-zero
failures are modelled with `Except`.
-/

/-- The local variables of `learn_p` that the final rendering block reads
and that may be unbound at that point. -/
inductive PyVar where
  | step
  | Y
deriving DecidableEq, Repr

/-- The Python run-time errors `learn_p` can raise: reading an unbound
local (NameError) and integer division by zero (ZeroDivisionError). -/
inductive PyError where
  | nameError (v : PyVar)
  | zeroDivisionError
deriving DecidableEq, Repr

/-- `Bern` from the notebook: `return 1 if rng.random() < p else 0`.
The uniform draw produced by `rng.random()` is passed explicitly. -/
def Bern (p : ℚ) (draw : ℚ) : ℤ :=
  if draw < p then 1 else 0

/-- The loop-local state of `learn_p`: the two integer counters, plus
whether the local variable `Y` has been assigned yet (it is assigned
only inside the `if plot == True:` branch of the loop body). -/
structure LoopState where
  alpha : ℤ
  beta : ℤ
  yBound : Bool
deriving DecidableEq, Repr

/-- One iteration of `for step in range(n)` in `learn_p`: when `plot` is
set, `Y = st.beta.pdf(X, alpha, beta)` binds `Y`; then `flip = Bern(p)`,
`beta += (1-flip)`, `alpha += flip`. -/
def stepFn (p : ℚ) (plot : Bool) (draw : ℚ) (s : LoopState) : LoopState :=
  { alpha := s.alpha + Bern p draw
    beta := s.beta + (1 - Bern p draw)
    yBound := plot || s.yBound }

/-- The state of `learn_p`'s loop after `k` iterations, starting from
`alpha = beta = 1` with `Y` unbound; iteration `i` consumes `draws i`. -/
def loopState (p : ℚ) (plot : Bool) (draws : ℕ → ℚ) : ℕ → LoopState
  | 0 => ⟨1, 1, false⟩
  | k + 1 => stepFn p plot (draws k) (loopState p plot draws k)

/-- `learn_p` from the notebook, with the `plot` keyword and the random
stream explicit. After the `n` loop iterations, the final rendering
block reads the loop variable `step` (unbound when `n = 0`), then
`ax.plot(X, Y)` reads `Y` (unbound when no iteration executed the plot
branch), then the printed MAP estimate divides by `alpha + beta - 2`;
only then does `return alpha, beta` run. -/
def learn_p (p : ℚ) (n : ℕ) (plot : Bool) (draws : ℕ → ℚ) :
    Except PyError (ℤ × ℤ) :=
  let s := loopState p plot draws n
  if n = 0 then
    Except.error (PyError.nameError PyVar.step)
  else if s.yBound = false then
    Except.error (PyError.nameError PyVar.Y)
  else if s.alpha + s.beta - 2 = 0 then
    Except.error PyError.zeroDivisionError
  else
    Except.ok (s.alpha, s.beta)

/-- `Bern` only produces 0 or 1. -/
lemma Bern_eq_zero_or_one (p draw : ℚ) : Bern p draw = 0 ∨ Bern p draw = 1 := by
  unfold Bern
  split
  · exact Or.inr rfl
  · exact Or.inl rfl

lemma Bern_nonneg (p draw : ℚ) : 0 ≤ Bern p draw := by
  rcases Bern_eq_zero_or_one p draw with h | h <;> simp [h]

lemma Bern_le_one (p draw : ℚ) : Bern p draw ≤ 1 := by
  rcases Bern_eq_zero_or_one p draw with h | h <;> simp [h]

/-- The two counters always sum to (number of iterations) + 2. -/
lemma loopState_sum (p : ℚ) (plot : Bool) (draws : ℕ → ℚ) :
    ∀ k : ℕ, (loopState p plot draws k).alpha + (loopState p plot draws k).beta = (k : ℤ) + 2 := by
  intro k
  induction k with
  | zero => simp [loopState]
  | succ k ih =>
      simp only [loopState, stepFn]
      push_cast
      linarith [ih]

/-- Both counters stay at least 1 after any number of iterations. -/
lemma loopState_ge_one (p : ℚ) (plot : Bool) (draws : ℕ → ℚ) :
    ∀ k : ℕ, 1 ≤ (loopState p plot draws k).alpha ∧ 1 ≤ (loopState p plot draws k).beta := by
  intro k
  induction k with
  | zero => simp [loopState]
  | succ k ih =>
      have h0 := Bern_nonneg p (draws k)
      have h1 := Bern_le_one p (draws k)
      simp only [loopState, stepFn]
      constructor
      · linarith [ih.1]
      · linarith [ih.2]

/-- `Y` is never bound when `plot` is off. -/
lemma loopState_yBound_of_not_plot (p : ℚ) (draws : ℕ → ℚ) :
    ∀ k : ℕ, (loopState p false draws k).yBound = false := by
  intro k
  induction k with
  | zero => rfl
  | succ k ih => simp [loopState, stepFn, ih]

/-- `Y` is bound as soon as one iteration has run with `plot` on. -/
lemma loopState_yBound_of_plot (p : ℚ) (draws : ℕ → ℚ) (k : ℕ) (hk : 1 ≤ k) :
    (loopState p true draws k).yBound = true := by
  cases k with
  | zero => omega
  | succ k => simp [loopState, stepFn]

/-- With `plot` on and at least one iteration, `learn_p` returns the
final loop counters. -/
lemma learn_p_eq_ok (p : ℚ) (n : ℕ) (draws : ℕ → ℚ) (hn : 1 ≤ n) :
    learn_p p n true draws =
      Except.ok ((loopState p true draws n).alpha, (loopState p true draws n).beta) := by
  have hy := loopState_yBound_of_plot p draws n hn
  have hs := loopState_sum p true draws n
  unfold learn_p
  rw [if_neg (by omega), if_neg (by simp [hy]), if_neg (by omega)]

/-- Whenever `learn_p` returns, the returned pair is the final loop
state, and at least one iteration was run. -/
lemma learn_p_ok_elim (p : ℚ) (n : ℕ) (plot : Bool) (draws : ℕ → ℚ) (a b : ℤ)
    (h : learn_p p n plot draws = Except.ok (a, b)) :
    a = (loopState p plot draws n).alpha ∧ b = (loopState p plot draws n).beta ∧ 1 ≤ n := by
  simp only [learn_p] at h
  split_ifs at h with h1 h2 h3
  simp at h
  exact ⟨h.1.symm, h.2.symm, by omega⟩

/-- The loop state only depends on the draws actually consumed. -/
lemma loopState_congr (p : ℚ) (plot : Bool) (d1 d2 : ℕ → ℚ) :
    ∀ k : ℕ, (∀ i, i < k → d1 i = d2 i) →
      loopState p plot d1 k = loopState p plot d2 k := by
  intro k
  induction k with
  | zero => intro _; rfl
  | succ k ih =>
      intro h
      simp only [loopState]
      rw [ih (fun i hi => h i (by omega)), h k (by omega)]

/-- `alpha` after `k` iterations is exactly 1 plus the number of
consumed draws that are strictly below `p`. -/
lemma loopState_alpha_count (p : ℚ) (plot : Bool) (draws : ℕ → ℚ) :
    ∀ k : ℕ, (loopState p plot draws k).alpha =
      1 + (((Finset.range k).filter (fun i => draws i < p)).card : ℤ) := by
  intro k
  induction k with
  | zero => simp [loopState]
  | succ k ih =>
      have hnot : k ∉ (Finset.range k).filter (fun i => draws i < p) := by
        simp
      simp only [loopState, stepFn, ih, Finset.range_succ, Finset.filter_insert, Bern]
      by_cases h : draws k < p
      · rw [if_pos h, if_pos h, Finset.card_insert_of_not_mem hnot]
        push_cast
        ring
      · rw [if_neg h, if_neg h]
        ring

/-- `beta` after `k` iterations is exactly 1 plus the number of consumed
draws that are not strictly below `p`. -/
lemma loopState_beta_count (p : ℚ) (plot : Bool) (draws : ℕ → ℚ) :
    ∀ k : ℕ, (loopState p plot draws k).beta =
      1 + (((Finset.range k).filter (fun i => ¬ draws i < p)).card : ℤ) := by
  intro k
  induction k with
  | zero => simp [loopState]
  | succ k ih =>
      have hnot : k ∉ (Finset.range k).filter (fun i => ¬ draws i < p) := by
        simp
      simp only [loopState, stepFn, ih, Finset.range_succ, Finset.filter_insert, Bern]
      by_cases h : draws k < p
      · rw [if_pos h, if_neg (by simpa using h)]
        ring
      · rw [if_neg h, if_pos h, Finset.card_insert_of_not_mem hnot]
        push_cast
        ring

/-- If every consumed flip comes out 1, the run ends at `(1 + k, 1)`. -/
lemma loopState_of_flips_one (p : ℚ) (plot : Bool) (draws : ℕ → ℚ) :
    ∀ k : ℕ, (∀ j, j < k → Bern p (draws j) = 1) →
      (loopState p plot draws k).alpha = 1 + (k : ℤ) ∧
        (loopState p plot draws k).beta = 1 := by
  intro k
  induction k with
  | zero => intro _; simp [loopState]
  | succ k ih =>
      intro h
      have hk := h k (by omega)
      obtain ⟨ha, hb⟩ := ih (fun j hj => h j (by omega))
      simp only [loopState, stepFn, ha, hb, hk]
      constructor
      · push_cast
        ring
      · norm_num

/-- If every consumed flip comes out 0, the run ends at `(1, 1 + k)`. -/
lemma loopState_of_flips_zero (p : ℚ) (plot : Bool) (draws : ℕ → ℚ) :
    ∀ k : ℕ, (∀ j, j < k → Bern p (draws j) = 0) →
      (loopState p plot draws k).alpha = 1 ∧
        (loopState p plot draws k).beta = 1 + (k : ℤ) := by
  intro k
  induction k with
  | zero => intro _; simp [loopState]
  | succ k ih =>
      intro h
      have hk := h k (by omega)
      obtain ⟨ha, hb⟩ := ih (fun j hj => h j (by omega))
      simp only [loopState, stepFn, ha, hb, hk]
      constructor
      · norm_num
      · push_cast
        ring

/-- A draw in `[0, 1)` compared against `p ≤ 0` never lands below `p`. -/
lemma Bern_eq_zero_of_nonpos (p draw : ℚ) (hp : p ≤ 0) (hd : 0 ≤ draw) :
    Bern p draw = 0 := by
  unfold Bern
  rw [if_neg (by linarith)]

/-- A draw in `[0, 1)` compared against `p ≥ 1` always lands below `p`. -/
lemma Bern_eq_one_of_one_le (p draw : ℚ) (hp : 1 ≤ p) (hd : draw < 1) :
    Bern p draw = 1 := by
  unfold Bern
  rw [if_pos (by linarith)]

/-- C1: the claim says the `plot` flag has no effect on the outcome of
`learn_p`. In the source this fails: the final rendering block executes
`ax.plot(X, Y)` unconditionally, but `Y` is assigned only inside the
`if plot == True:` branch of the loop, so every `plot=False` call dies
with a NameError instead of returning. The numeric counters computed by
the loop are nevertheless identical: at the failing input the
`plot=False` loop reaches the same `(11, 1)` that `plot=True` returns. -/
theorem plot_false_raises_nameError :
    learn_p 1 10 false (fun _ => 0) = Except.error (PyError.nameError PyVar.Y) ∧
      learn_p 1 10 true (fun _ => 0) = Except.ok (11, 1) ∧
      (loopState 1 false (fun _ => 0) 10).alpha = 11 ∧
      (loopState 1 false (fun _ => 0) 10).beta = 1 :=
  ⟨rfl, rfl, rfl, rfl⟩

/-- C2 counterexample: `learn_p` with `n = 0` does not return the prior
`(1, 1)`; it raises a NameError, because the final rendering block reads
the loop variable `step` which was never bound (the loop body never ran). -/
theorem learn_p_n_zero_raises :
    learn_p 1 0 true (fun _ => 0) ≠ Except.ok (1, 1) ∧
      learn_p 1 0 true (fun _ => 0) = Except.error (PyError.nameError PyVar.step) := by
  refine ⟨fun h => ?_, rfl⟩
  rw [show learn_p 1 0 true (fun _ => 0) =
    Except.error (PyError.nameError PyVar.step) from rfl] at h
  exact Except.noConfusion h

/-- C2 amended: calling `learn_p` with `n = 0` raises
`NameError` on the loop variable `step` (for every `p`, every `plot`
and every draw sequence); the update loop itself leaves the prior
`(alpha, beta) = (1, 1)` untouched. -/
theorem learn_p_n_zero_amended (p : ℚ) (plot : Bool) (draws : ℕ → ℚ) :
    learn_p p 0 plot draws = Except.error (PyError.nameError PyVar.step) ∧
      (loopState p plot draws 0).alpha = 1 ∧ (loopState p plot draws 0).beta = 1 :=
  ⟨rfl, rfl, rfl⟩

/-- C3: whenever `learn_p` returns, the returned counters satisfy
`alpha + beta = n + 2`. -/
theorem learn_p_counter_sum (p : ℚ) (n : ℕ) (plot : Bool) (draws : ℕ → ℚ) (a b : ℤ)
    (h : learn_p p n plot draws = Except.ok (a, b)) :
    a + b = (n : ℤ) + 2 := by
  obtain ⟨ha, hb, -⟩ := learn_p_ok_elim p n plot draws a b h
  rw [ha, hb]
  exact loopState_sum p plot draws n

theorem learn_p_counter_sum_witness :
    learn_p 1 1 true (fun _ => 0) = Except.ok (2, 1) ∧
      (2 : ℤ) + 1 = ((1 : ℕ) : ℤ) + 2 :=
  ⟨rfl, learn_p_counter_sum 1 1 true (fun _ => 0) 2 1 rfl⟩

/-- C4: each simulated coin flip is a Bernoulli trial realized by
comparing one uniform draw against `p`: the flip is 1 exactly when the
draw is strictly less than `p`, and 0 otherwise. -/
theorem Bern_flip_iff (p draw : ℚ) :
    (Bern p draw = 1 ↔ draw < p) ∧ (Bern p draw = 0 ↔ ¬ draw < p) := by
  unfold Bern
  by_cases h : draw < p
  · simp [h]
  · simp [h]

/-- C5: after every individual iteration of the update loop the
counters satisfy `alpha ≥ 1` and `beta ≥ 1`, and whenever `learn_p`
returns, the returned counters do too. -/
theorem learn_p_counters_ge_one (p : ℚ) (n : ℕ) (plot : Bool) (draws : ℕ → ℚ)
    (k : ℕ) (a b : ℤ) (h : learn_p p n plot draws = Except.ok (a, b)) :
    (1 ≤ (loopState p plot draws k).alpha ∧ 1 ≤ (loopState p plot draws k).beta) ∧
      1 ≤ a ∧ 1 ≤ b := by
  obtain ⟨ha, hb, -⟩ := learn_p_ok_elim p n plot draws a b h
  refine ⟨loopState_ge_one p plot draws k, ?_, ?_⟩
  · rw [ha]
    exact (loopState_ge_one p plot draws n).1
  · rw [hb]
    exact (loopState_ge_one p plot draws n).2

theorem learn_p_counters_ge_one_witness :
    learn_p 1 2 true (fun _ => 0) = Except.ok (3, 1) ∧
      ((1 ≤ (loopState 1 true (fun _ => 0) 3).alpha ∧
          1 ≤ (loopState 1 true (fun _ => 0) 3).beta) ∧
        1 ≤ (3 : ℤ) ∧ 1 ≤ (1 : ℤ)) :=
  ⟨rfl, learn_p_counters_ge_one 1 2 true (fun _ => 0) 3 3 1 rfl⟩

/-- C6: with the source's default `plot=True` and `n ≥ 1`, an
out-of-range `p` produces degenerate but not crashing behavior: when
`p ≤ 0` every flip is 0 and the run returns `(1, n+1)`; when `p ≥ 1`
every flip is 1 and the run returns `(n+1, 1)`. The draws produced by
`rng.random()` lie in `[0, 1)`. -/
theorem learn_p_degenerate_p (p : ℚ) (n i : ℕ) (draws : ℕ → ℚ)
    (hd : ∀ j, 0 ≤ draws j ∧ draws j < 1) (hn : 1 ≤ n) :
    (p ≤ 0 → Bern p (draws i) = 0 ∧
        learn_p p n true draws = Except.ok (1, (n : ℤ) + 1)) ∧
      (1 ≤ p → Bern p (draws i) = 1 ∧
        learn_p p n true draws = Except.ok ((n : ℤ) + 1, 1)) := by
  constructor
  · intro hp
    have hall : ∀ j, j < n → Bern p (draws j) = 0 := fun j _ =>
      Bern_eq_zero_of_nonpos p (draws j) hp (hd j).1
    obtain ⟨ha, hb⟩ := loopState_of_flips_zero p true draws n hall
    refine ⟨Bern_eq_zero_of_nonpos p (draws i) hp (hd i).1, ?_⟩
    rw [learn_p_eq_ok p n draws hn, ha, hb, add_comm (1 : ℤ) (n : ℤ)]
  · intro hp
    have hall : ∀ j, j < n → Bern p (draws j) = 1 := fun j _ =>
      Bern_eq_one_of_one_le p (draws j) hp (hd j).2
    obtain ⟨ha, hb⟩ := loopState_of_flips_one p true draws n hall
    refine ⟨Bern_eq_one_of_one_le p (draws i) hp (hd i).2, ?_⟩
    rw [learn_p_eq_ok p n draws hn, ha, hb, add_comm (1 : ℤ) (n : ℤ)]

theorem learn_p_degenerate_p_witness :
    (∀ j : ℕ, 0 ≤ (fun _ => (0 : ℚ)) j ∧ (fun _ => (0 : ℚ)) j < 1) ∧
      (1 : ℕ) ≤ 2 ∧
      (((-1 : ℚ) ≤ 0 → Bern (-1) ((fun _ => (0 : ℚ)) 0) = 0 ∧
          learn_p (-1) 2 true (fun _ => 0) = Except.ok (1, ((2 : ℕ) : ℤ) + 1)) ∧
        ((1 : ℚ) ≤ -1 → Bern (-1) ((fun _ => (0 : ℚ)) 0) = 1 ∧
          learn_p (-1) 2 true (fun _ => 0) = Except.ok (((2 : ℕ) : ℤ) + 1, 1))) :=
  ⟨fun _ => ⟨le_refl 0, by norm_num⟩, by norm_num,
    learn_p_degenerate_p (-1) 2 0 (fun _ => 0)
      (fun _ => ⟨le_refl 0, by norm_num⟩) (by norm_num)⟩

/-- C7: with `p = 1.0` and `n = 10` (and the source's default
`plot=True`), every one of the 10 flips is 1 — each uniform draw lies in
`[0, 1)` and is therefore strictly less than 1 — and the run returns
`(alpha, beta) = (11, 1)`. -/
theorem learn_p_p_one_n_ten (i : ℕ) (draws : ℕ → ℚ)
    (hd : ∀ j, 0 ≤ draws j ∧ draws j < 1) :
    Bern 1 (draws i) = 1 ∧ learn_p 1 10 true draws = Except.ok (11, 1) := by
  have hall : ∀ j, j < 10 → Bern 1 (draws j) = 1 := fun j _ =>
    Bern_eq_one_of_one_le 1 (draws j) le_rfl (hd j).2
  obtain ⟨ha, hb⟩ := loopState_of_flips_one 1 true draws 10 hall
  refine ⟨Bern_eq_one_of_one_le 1 (draws i) le_rfl (hd i).2, ?_⟩
  rw [learn_p_eq_ok 1 10 draws (by norm_num), ha, hb]
  norm_num

theorem learn_p_p_one_n_ten_witness :
    (∀ j : ℕ, 0 ≤ (fun _ => (0 : ℚ)) j ∧ (fun _ => (0 : ℚ)) j < 1) ∧
      (Bern 1 ((fun _ => (0 : ℚ)) 0) = 1 ∧
        learn_p 1 10 true (fun _ => 0) = Except.ok (11, 1)) :=
  ⟨fun _ => ⟨le_refl 0, by norm_num⟩,
    learn_p_p_one_n_ten 0 (fun _ => 0) (fun _ => ⟨le_refl 0, by norm_num⟩)⟩

/-- C8: `learn_p` is deterministic given its randomness: two runs that
observe the same sequence of uniform draws (the `n` draws actually
consumed) produce identical outcomes, counters included. -/
theorem learn_p_deterministic (p : ℚ) (n : ℕ) (plot : Bool) (d1 d2 : ℕ → ℚ)
    (h : ∀ i, i < n → d1 i = d2 i) :
    learn_p p n plot d1 = learn_p p n plot d2 := by
  unfold learn_p
  rw [loopState_congr p plot d1 d2 n h]

theorem learn_p_deterministic_witness :
    (∀ i : ℕ, i < 3 → (fun _ => (0 : ℚ)) i = (fun j => if j < 3 then (0 : ℚ) else 1) i) ∧
      learn_p 1 3 true (fun _ => 0) =
        learn_p 1 3 true (fun j => if j < 3 then (0 : ℚ) else 1) :=
  ⟨fun i hi => by simp [hi],
    learn_p_deterministic 1 3 true (fun _ => 0) (fun j => if j < 3 then (0 : ℚ) else 1)
      (fun i hi => by simp [hi])⟩

/-- C9: whenever `learn_p` returns, the counters are exact integers
determined by counting: `alpha` is 1 plus the number of consumed draws
strictly below `p`, and `beta` is 1 plus the number of remaining draws.
The counters start at the integer 1 and only ever have the integers
`flip` and `1 - flip` added, so no floating-point rounding occurs. -/
theorem learn_p_counts_exact (p : ℚ) (n : ℕ) (plot : Bool) (draws : ℕ → ℚ) (a b : ℤ)
    (h : learn_p p n plot draws = Except.ok (a, b)) :
    a = 1 + (((Finset.range n).filter (fun i => draws i < p)).card : ℤ) ∧
      b = 1 + (((Finset.range n).filter (fun i => ¬ draws i < p)).card : ℤ) := by
  obtain ⟨ha, hb, -⟩ := learn_p_ok_elim p n plot draws a b h
  rw [ha, hb]
  exact ⟨loopState_alpha_count p plot draws n, loopState_beta_count p plot draws n⟩

theorem learn_p_counts_exact_witness :
    learn_p 1 2 true (fun _ => 0) = Except.ok (3, 1) ∧
      ((3 : ℤ) = 1 + (((Finset.range 2).filter (fun i => (fun _ => (0 : ℚ)) i < 1)).card : ℤ) ∧
        (1 : ℤ) = 1 + (((Finset.range 2).filter (fun i => ¬ (fun _ => (0 : ℚ)) i < 1)).card : ℤ)) :=
  ⟨rfl, learn_p_counts_exact 1 2 true (fun _ => 0) 3 1 rfl⟩

/-- C10: whenever `learn_p` returns, the mean estimate
`alpha / (alpha + beta)` is strictly between 0 and 1 — it never equals
0 or 1 exactly, even when every observed flip had the same outcome —
because `alpha ≥ 1` and `beta ≥ 1` always hold. -/
theorem learn_p_mean_in_open_unit (p : ℚ) (n : ℕ) (plot : Bool) (draws : ℕ → ℚ) (a b : ℤ)
    (h : learn_p p n plot draws = Except.ok (a, b)) :
    0 < (a : ℚ) / ((a : ℚ) + (b : ℚ)) ∧ (a : ℚ) / ((a : ℚ) + (b : ℚ)) < 1 := by
  obtain ⟨ha, hb, -⟩ := learn_p_ok_elim p n plot draws a b h
  have h1 : 1 ≤ a := by rw [ha]; exact (loopState_ge_one p plot draws n).1
  have h2 : 1 ≤ b := by rw [hb]; exact (loopState_ge_one p plot draws n).2
  have ha0 : (0 : ℚ) < (a : ℚ) := by exact_mod_cast by omega
  have hb0 : (0 : ℚ) < (b : ℚ) := by exact_mod_cast by omega
  constructor
  · exact div_pos ha0 (by linarith)
  · rw [div_lt_one (by linarith)]
    linarith

theorem learn_p_mean_in_open_unit_witness :
    learn_p 1 3 true (fun _ => 0) = Except.ok (4, 1) ∧
      (0 < ((4 : ℤ) : ℚ) / (((4 : ℤ) : ℚ) + ((1 : ℤ) : ℚ)) ∧
        ((4 : ℤ) : ℚ) / (((4 : ℤ) : ℚ) + ((1 : ℤ) : ℚ)) < 1) :=
  ⟨rfl, learn_p_mean_in_open_unit 1 3 true (fun _ => 0) 4 1 rfl⟩
